import Mathlib

/- Shallow embedding of `update_index_from_excel.py`, a spreadsheet-to-HTML
updater.  Cell values are modelled as `Option String`, the string standing for
the Python `str(cell)` image of the raw cell; records are insertion-ordered
association lists mirroring Python dicts.  The Python string primitives the
script uses (`strip`, `lower`, `split`, `in`, `str.find`, `join`) and its
handful of concrete regular expressions are embedded over `List Char`,
covering the ASCII/CJK fragment the script manipulates. -/

abbrev Cell := Option String

abbrev Record := List (String × String)

def strOfL (l : List Char) : String := ⟨l⟩

/-- Python whitespace for `str.strip` and regex `\s` (ASCII fragment). -/
def pyIsSpace (c : Char) : Bool :=
  c == ' ' || c == '\t' || c == '\n' || c == '\r' || c == '\x0b' || c == '\x0c'

def pyStripL (l : List Char) : List Char :=
  ((l.dropWhile pyIsSpace).reverse.dropWhile pyIsSpace).reverse

/-- Python `str.strip()`. -/
def pyStrip (s : String) : String := strOfL (pyStripL s.data)

/-- Python `str.lower()` (ASCII case mapping; CJK characters are fixed points). -/
def strLower (s : String) : String := strOfL (s.data.map Char.toLower)

/-- Python `needle in hay` (contiguous substring test), on char lists. -/
def containsSubL (needle : List Char) : List Char → Bool
  | [] => needle.isEmpty
  | c :: t => needle.isPrefixOf (c :: t) || containsSubL needle t

/-- Python `needle in hay` on strings. -/
def pyInStr (needle hay : String) : Bool := containsSubL needle.data hay.data

/-- Python `sep.join(items)`. -/
def joinSep (sep : String) : List String → String
  | [] => ""
  | [x] => x
  | x :: y :: xs => x ++ sep ++ joinSep sep (y :: xs)

/-- `sep.join` on char lists. -/
def joinL (sep : List Char) : List (List Char) → List Char
  | [] => []
  | [x] => x
  | x :: y :: xs => x ++ sep ++ joinL sep (y :: xs)

/-- Python `s.split(sep)` for a one-character separator. -/
def splitOnCharL (sep : Char) : List Char → List (List Char)
  | [] => [[]]
  | c :: t =>
    if c == sep then [] :: splitOnCharL sep t
    else
      match splitOnCharL sep t with
      | [] => [[c]]
      | x :: xs => (c :: x) :: xs

/-- Python `int(s)`: optional sign then decimal digits, surrounding whitespace
allowed (underscore-grouped literals are not modelled; the script only ever
parses plain numerals).  `none` where Python raises `ValueError`. -/
def parseIntPy (s : String) : Option Int :=
  let l := pyStripL s.data
  let sgn : Int := match l with | '-' :: _ => -1 | _ => 1
  let ds := match l with | '+' :: t => t | '-' :: t => t | t => t
  if ds.isEmpty || !ds.all Char.isDigit then none
  else some (sgn * (ds.foldl (fun n c => n * 10 + ((c.toNat : Int) - 48)) 0))

/-- Python `d[k] = v` on an insertion-ordered dict rendered as an assoc list:
an existing key keeps its position and gets the new value, a new key is
appended. -/
def dinsert : Record → String → String → Record
  | [], k, v => [(k, v)]
  | (k', v') :: rest, k, v =>
    if k' == k then (k', v) :: rest else (k', v') :: dinsert rest k v

/-- Python `d.get(k, dflt)`. -/
def recGetD (r : Record) (k dflt : String) : String := (List.lookup k r).getD dflt

/-- Python `(r.get(key, "") if key else "")` where `key : Optional[str]`
(`None` and the empty string are both falsy). -/
def getIfKey (r : Record) (key : Option String) : String :=
  match key with
  | some k => if k ≠ "" then recGetD r k "" else ""
  | none => ""

/-- `"" if cell is None else str(cell).strip()` (source lines 33 and 50). -/
def cellToStr (c : Cell) : String :=
  match c with
  | none => ""
  | some s => pyStrip s

/-- `any(cell is not None and str(cell).strip() != "" for cell in row)`. -/
def rowNonBlank (row : List Cell) : Bool :=
  row.any (fun c => match c with | some s => pyStrip s != "" | none => false)

/-- Header names: blank header cells become `col_<position>`, 0-based
(source lines 33-39). -/
def headersOf (row : List Cell) : List String :=
  row.enum.map (fun ic =>
    let h := cellToStr ic.2
    if h == "" then "col_" ++ toString ic.1 else h)

/-- `for key, cell in zip(headers, row): entry[key] = conv cell`
(source lines 48-51); `zip` truncates to the shorter sequence. -/
def rowToRecord (headers : List String) (row : List Cell) : Record :=
  (headers.zip row).foldl (fun e kc => dinsert e kc.1 (cellToStr kc.2)) []

/-- `read_rows_as_dicts` (source lines 19-52): the first non-blank row is the
header row, each later non-blank row becomes one record, blank rows are
skipped.  (The Python `if row is None: continue` guard is dead code:
`iter_rows` never yields `None`.) -/
def read_rows_as_dicts : List (List Cell) → List Record
  | [] => []
  | row :: rest =>
    if rowNonBlank row then (rest.filter rowNonBlank).map (rowToRecord (headersOf row))
    else read_rows_as_dicts rest

def collapseWsAux : Bool → List Char → List Char
  | _, [] => []
  | prevSp, c :: t =>
    if pyIsSpace c then
      if prevSp then collapseWsAux true t else ' ' :: collapseWsAux true t
    else c :: collapseWsAux false t

/-- `normalize_name` (source lines 55-56): strip, lowercase, collapse each
whitespace run to a single space. -/
def normalize_name (s : String) : String :=
  strOfL (collapseWsAux false ((pyStripL s.data).map Char.toLower))

/-- `find_col` (source lines 59-70).  The comprehension
`{k.lower(): k for k in keys}` lets a later key shadow an earlier one with the
same lowercase image, hence `reverse.find?` in the exact pass; the substring
fallback scans keys in insertion order. -/
def find_col (r : Record) (possible : List String) : Option String :=
  let keys := r.map Prod.fst
  match possible.findSome? (fun p => keys.reverse.find? (fun k => strLower k == strLower p)) with
  | some k => some k
  | none => keys.find? (fun k => possible.any (fun p => pyInStr (strLower p) (strLower k)))

/-- ASCII word characters, for the regex `\b` boundary (`\w` fragment). -/
def isWordChar (c : Char) : Bool := c.isAlphanum || c == '_'

def isWordCharO : Option Char → Bool
  | some c => isWordChar c
  | none => false

/-- Case-insensitive literal match; the pattern is given lowercase.  Returns
the remaining input on success. -/
def matchCIL : List Char → List Char → Option (List Char)
  | [], s => some s
  | _ :: _, [] => none
  | p :: ps, c :: cs => if c.toLower == p then matchCIL ps cs else none

/-- Branch `Yuchen\s+Li` of `NAME_HIGHLIGHT_PATTERN` (source line 73). -/
def tryName1 (s : List Char) : Option (List Char) :=
  match matchCIL "yuchen".data s with
  | none => none
  | some r1 =>
    match r1 with
    | c :: _ => if pyIsSpace c then matchCIL "li".data (r1.dropWhile pyIsSpace) else none
    | [] => none

/-- Branch `Y\.?\s*Li`.  Consuming the optional dot greedily is equivalent to
Python's backtracking: if the greedy path fails, the dot-less path would have
to read `Li` starting at the dot and fails too. -/
def tryName2 (s : List Char) : Option (List Char) :=
  match matchCIL "y".data s with
  | none => none
  | some r1 =>
    let r2 := match r1 with | '.' :: t => t | t => t
    matchCIL "li".data (r2.dropWhile pyIsSpace)

/-- One attempt of `\b(Yuchen\s+Li|Y\.?\s*Li)\b` at the head of `s`, given the
previous character; returns the match length.  The first alternative is
preferred, but when its trailing `\b` fails the engine falls back to the
second, exactly as Python backtracks.  Greedy `\s+`/`\s*` need no further
backtracking: shrinking them leaves a whitespace character where `Li` must
start. -/
def tryNameAt (prev : Option Char) (s : List Char) : Option Nat :=
  if isWordCharO prev then none
  else
    let fin := fun (r? : Option (List Char)) =>
      match r? with
      | some r => if isWordCharO r.head? then none else some (s.length - r.length)
      | none => none
    match fin (tryName1 s) with
    | some n => some n
    | none => fin (tryName2 s)

/-- The `re.sub` scan of `highlight_name_globally` (source lines 76-77).  The
replacement template in the source is the RAW string
`r"<font class=\"deepblue\">\1</font>"`; `re` keeps unknown non-letter escapes
verbatim, so the emitted marker contains a literal backslash before each inner
quote.  Fuel is the input length; every match consumes at least three
characters, so fuel never runs out before the input does. -/
def nameSubAux : Nat → Option Char → List Char → List Char
  | 0, _, s => s
  | _ + 1, _, [] => []
  | fuel + 1, prev, c :: t =>
    match tryNameAt prev (c :: t) with
    | some n =>
      let matched := (c :: t).take n
      "<font class=\\\"deepblue\\\">".data ++ matched ++ "</font>".data ++
        nameSubAux fuel matched.getLast? ((c :: t).drop n)
    | none => c :: nameSubAux fuel (some c) t

/-- `highlight_name_globally` (source lines 76-77). -/
def highlight_name_globally (text : String) : String :=
  strOfL (nameSubAux text.data.length none text.data)

/-- `highlight_authors` (source lines 80-111): wrap the 1-based
`author_order`-th comma-separated token when the order is a valid in-range
integer, otherwise fall back to the global name-pattern substitution. -/
def highlight_authors (authors : String) (author_order_value : Option String) : String :=
  if authors == "" then authors
  else
    let author_index : Option Int :=
      match author_order_value with
      | some ov =>
        if ov ≠ "" then
          match parseIntPy ov with
          | some n => if n < 1 then none else some n
          | none => none
        else none
      | none => none
    match author_index with
    | some idx =>
      let tokens : List String := (splitOnCharL ',' authors.data).map (fun t => strOfL (pyStripL t))
      if 1 ≤ idx ∧ idx ≤ (tokens.length : Int) then
        joinSep ", " (tokens.enum.map (fun it =>
          if ((it.1 : Int) + 1) == idx then "<font class=\"deepblue\">" ++ it.2 ++ "</font>" else it.2))
      else highlight_name_globally authors
    | none => highlight_name_globally authors

/-- `date_val` of one news record (source lines 117, 122). -/
def newsDateVal (r : Record) : String :=
  pyStrip (getIfKey r (find_col r ["date", "日期", "时间"]))

/-- Python `a or b` on `Optional[str]` operands (`None` and `""` falsy). -/
def orKey (a b : Option String) : Option String :=
  match a with
  | some s => if s ≠ "" then some s else b
  | none => b

/-- `text_val` of one news record (source lines 118-126): the resolved
text-like column, else the first column (`next(iter(r.keys()), None)`); if the
chosen value is empty, the comma-join of all non-empty values. -/
def newsTextVal (r : Record) : String :=
  let text_key := orKey (find_col r ["text", "content", "描述", "description", "desc", "内容", "news"])
    ((r.map Prod.fst).head?)
  let text_val := pyStrip (getIfKey r text_key)
  if text_val == "" then joinSep ", " ((r.map Prod.snd).filter (fun v => v != ""))
  else text_val

/-- One `<li>` line of `build_news_items` (source lines 127-130). -/
def newsLineOf (r : Record) : String :=
  if newsDateVal r != "" then
    "<li><i>" ++ newsDateVal r ++ "</i> : " ++ newsTextVal r ++ "</li>"
  else "<li>" ++ newsTextVal r ++ "</li>"

/-- `build_news_items` (source lines 114-132): each record yields its line and
a `<br>` item, all joined with newlines. -/
def build_news_items (rows : List Record) : String :=
  joinSep "\n" (rows.flatMap (fun r => [newsLineOf r, "<br>"]))

/-- Python `s.endswith(".")`. -/
def endsWithDot (s : String) : Bool :=
  match s.data.getLast? with
  | some c => c == '.'
  | none => false

/-- `compose_pub_main_text` (source lines 135-180). -/
def compose_pub_main_text (r : Record) : String :=
  let raw_authors := pyStrip (recGetD r ((find_col r ["authors", "author", "作者"]).getD "") "")
  let author_order_key := (find_col r ["author_order", "作者序", "作者次序", "次序"]).getD ""
  let author_order_val := if author_order_key ≠ "" then pyStrip (recGetD r author_order_key "") else ""
  let authors := highlight_authors raw_authors (some author_order_val)
  let title := pyStrip (recGetD r ((find_col r ["title", "题目"]).getD "") "")
  let container := pyStrip (recGetD r
    ((find_col r ["journal", "conference", "book", "venue", "容器", "刊物", "期刊", "会议"]).getD "") "")
  let pages := pyStrip (recGetD r ((find_col r ["pages", "pp", "页"]).getD "") "")
  let time_key := (find_col r ["time", "日期", "时间"]).getD ""
  let time_val0 := if time_key ≠ "" then pyStrip (recGetD r time_key "") else ""
  let time_val :=
    if time_val0 == "" then
      let month := pyStrip (recGetD r ((find_col r ["month"]).getD "") "")
      let year := pyStrip (recGetD r ((find_col r ["year", "年份"]).getD "") "")
      joinSep ", " ([month, year].filter (fun v => v != ""))
    else time_val0
  let doi_key := (find_col r ["doi", "doa"]).getD ""
  let doi_val := if doi_key ≠ "" then pyStrip (recGetD r doi_key "") else ""
  let parts : List String :=
    (if authors ≠ "" then [authors] else []) ++
    (if title ≠ "" then ["\"" ++ title ++ "\""] else []) ++
    (if container ≠ "" then ["<i>" ++ container ++ "</i>"] else []) ++
    (if pages ≠ "" then [pages] else []) ++
    (if time_val ≠ "" then [time_val] else []) ++
    (if doi_val ≠ "" then ["doi: " ++ doi_val] else [])
  let main := pyStrip (joinSep ", " parts)
  if main ≠ "" && !endsWithDot main then main ++ "." else main

/-- `build_pub_item` (source lines 183-214). -/
def build_pub_item (r : Record) : String :=
  let main_text := compose_pub_main_text r
  let note_val := pyStrip (getIfKey r (find_col r ["note", "备注"]))
  let note_link_val := pyStrip (getIfKey r (find_col r ["note_link", "备注链接", "note_url"]))
  let link_key := (find_col r ["url", "link", "链接", "地址"]).getD ""
  let link_val := if link_key ≠ "" then pyStrip (recGetD r link_key "") else ""
  let doi_key := (find_col r ["doi", "doa"]).getD ""
  let doi_val := if doi_key ≠ "" then pyStrip (recGetD r doi_key "") else ""
  let extras : List String :=
    if note_val ≠ "" then
      if note_link_val ≠ "" then
        ["<font class=\"red\">(<a href=\x27" ++ note_link_val ++ "\x27 class=\"red\">" ++ note_val ++ "</a>)</font>"]
      else ["<font class=\"red\">(" ++ note_val ++ ")</font>"]
    else []
  let link_html :=
    if link_val ≠ "" then
      "<br><a href=\x27" ++ link_val ++ "\x27 class=\"deepgrey\">" ++ link_val ++ "</a>"
    else if doi_val ≠ "" then
      "<br><a href=\x27https://doi.org/" ++ doi_val ++ "\x27 class=\"deepgrey\">https://doi.org/" ++ doi_val ++ "</a>"
    else ""
  let extras_text := if !extras.isEmpty then " " ++ joinSep " " extras else ""
  "<li>" ++ main_text ++ extras_text ++ link_html ++ "</li>"

/-- `build_pub_item_with_trailing_br` (source lines 217-218). -/
def build_pub_item_with_trailing_br (r : Record) : String :=
  build_pub_item r ++ "\n<br>"

/-- `build_book_chapter_item` (source lines 221-292). -/
def build_book_chapter_item (r : Record) : String :=
  let raw_authors := pyStrip (recGetD r ((find_col r ["authors", "author", "作者"]).getD "") "")
  let author_order_key := (find_col r ["author_order", "作者序", "作者次序", "次序"]).getD ""
  let author_order_val := if author_order_key ≠ "" then pyStrip (recGetD r author_order_key "") else ""
  let authors := highlight_authors raw_authors (some author_order_val)
  let chapter_title := pyStrip (recGetD r ((find_col r ["chapter_title", "chapter", "章节题目"]).getD "") "")
  let book_title := pyStrip (recGetD r ((find_col r ["book_title", "book", "书名"]).getD "") "")
  let isbn := pyStrip (recGetD r ((find_col r ["isbn"]).getD "") "")
  let publisher := pyStrip (recGetD r ((find_col r ["publisher", "出版社"]).getD "") "")
  let year := pyStrip (recGetD r ((find_col r ["year", "年份"]).getD "") "")
  let parts : List String :=
    (if authors ≠ "" then [authors] else []) ++
    (if chapter_title ≠ "" then ["Chapter \"" ++ chapter_title ++ "\""] else []) ++
    (if book_title ≠ "" then ["for Book \"" ++ book_title ++ "\""] else []) ++
    (if isbn ≠ "" then ["ISBN: " ++ isbn] else []) ++
    (if publisher ≠ "" then ["<i>" ++ publisher ++ "</i>"] else []) ++
    (if year ≠ "" then [year] else [])
  let main_text0 := joinSep ", " parts
  let main_text := if main_text0 ≠ "" && !endsWithDot main_text0 then main_text0 ++ "." else main_text0
  let note_val := pyStrip (getIfKey r (find_col r ["note", "备注"]))
  let note_link_val := pyStrip (getIfKey r (find_col r ["note_link", "备注链接", "note_url"]))
  let link_key := (find_col r ["url", "link", "链接", "地址"]).getD ""
  let link_val := if link_key ≠ "" then pyStrip (recGetD r link_key "") else ""
  let doi_key := (find_col r ["doi", "doa"]).getD ""
  let doi_val := if doi_key ≠ "" then pyStrip (recGetD r doi_key "") else ""
  let image_key := (find_col r ["pics", "image", "图片", "picture"]).getD ""
  let image_val := if image_key ≠ "" then pyStrip (recGetD r image_key "") else ""
  let extras : List String :=
    if note_val ≠ "" then
      if note_link_val ≠ "" then
        ["<font class=\"red\">(<a href=\x27" ++ note_link_val ++ "\x27 class=\"red\">" ++ note_val ++ "</a>)</font>"]
      else ["<font class=\"red\">(" ++ note_val ++ ")</font>"]
    else []
  let link_html :=
    if link_val ≠ "" then
      "<br><a href=\x27" ++ link_val ++ "\x27 class=\"deepgrey\">" ++ link_val ++ "</a>"
    else if doi_val ≠ "" then
      "<br><a href=\x27https://doi.org/" ++ doi_val ++ "\x27 class=\"deepgrey\">https://doi.org/" ++ doi_val ++ "</a>"
    else ""
  let image_html :=
    if image_val ≠ "" then
      "<br><br><img src=\"" ++ image_val ++ "\" width=\"20%\" class=\"animate__animated animate__fadeIn animate__slow animate__delay-1s\">"
    else ""
  let extras_text := if !extras.isEmpty then " " ++ joinSep " " extras else ""
  "<li>" ++ main_text ++ extras_text ++ link_html ++ image_html ++ "</li>"

/-- `build_featured_items` (source lines 300-302). -/
def build_featured_items (rows : List Record) : String :=
  joinSep "\n\n" (rows.map build_pub_item_with_trailing_br)

/-- `build_book_chapter_items` (source lines 305-307). -/
def build_book_chapter_items (rows : List Record) : String :=
  joinSep "\n\n" (rows.map (fun r => build_book_chapter_item r ++ "\n<br>"))

/-- `build_conference_items_with_trailing_br` (source lines 310-312). -/
def build_conference_items_with_trailing_br (rows : List Record) : String :=
  joinSep "\n\n" (rows.map (fun r => build_pub_item r ++ "\n<br>"))

/-- `build_journal_items_with_trailing_br` (source lines 324-329). -/
def build_journal_items_with_trailing_br (rows : List Record) : String :=
  joinSep "\n\n" (rows.map (fun r => build_pub_item r ++ "\n<br>"))

/-- `strip_leading_index` (source lines 344-346): drop a leading
`\s*\d+\s*([,\.)、]\s*)?` prefix, if the digits are present; otherwise return
the input unchanged.  Greedy runs need no backtracking: a shorter whitespace
run would leave a whitespace character where a digit or `[,.)、]` must
stand. -/
def stripLeadingIndexL (l : List Char) : List Char :=
  let ws := l.dropWhile pyIsSpace
  let ds := ws.takeWhile Char.isDigit
  if ds.isEmpty then l
  else
    let rest := (ws.dropWhile Char.isDigit).dropWhile pyIsSpace
    match rest with
    | c :: t => if c == ',' || c == '.' || c == ')' || c == '、' then t.dropWhile pyIsSpace else rest
    | [] => rest

def strip_leading_index (text : String) : String := strOfL (stripLeadingIndexL text.data)

/-- The `state` parenthetical of `build_patent_items` (source lines 385-394):
`公开` is tested first and yields blue, then `授权` yields red, any other
non-empty state is blue; empty state yields nothing. -/
def patentStateHtml (state_val : String) : String :=
  if state_val == "" then ""
  else if pyInStr "公开" state_val then
    " <font class=\"blue\"><b>(" ++ state_val ++ ")</b></font>"
  else if pyInStr "授权" state_val then
    " <font class=\"red\"><b>(" ++ state_val ++ ")</b></font>"
  else " <font class=\"blue\"><b>(" ++ state_val ++ ")</b></font>"

/-- The accepted visibility tokens (source lines 360 and 409). -/
def trueTokens : List String := ["1", "true", "True", "是", "yes", "Yes"]

/-- The formatting part of the `build_patent_items` loop body (source lines
363-398), i.e. everything after the visibility filter: title first (leading
index stripped), then the remaining non-control fields, then the colored
state parenthetical.  The key resolutions (source lines 353-355) are pure, so
recomputing them here is equivalent to the source's earlier bindings. -/
def patentItemBody (r : Record) : List String :=
  let idx_key := (find_col r ["index", "序号"]).getD ""
  let state_key := (find_col r ["state", "状态"]).getD ""
  let visible_key := (find_col r ["visible", "visable", "展示"]).getD ""
  let title_key := (find_col r ["title", "题目", "patent_title"]).getD ""
  let title_val := if title_key ≠ "" then pyStrip (recGetD r title_key "") else ""
  let authors_key := (find_col r ["authors", "author", "作者"]).getD ""
  let excl : List String :=
    ["", strLower idx_key, strLower state_key, strLower visible_key,
     "note", "备注", "author_order", "作者序", "作者次序", "次序",
     strLower title_key, strLower authors_key]
  let parts : List String :=
    (if title_val ≠ "" then [strip_leading_index title_val] else []) ++
    r.filterMap (fun kv => if kv.2 ≠ "" ∧ strLower kv.1 ∉ excl then some kv.2 else none)
  let text := joinSep ", " parts
  let state_val := if state_key ≠ "" then pyStrip (recGetD r state_key "") else ""
  let state_html := patentStateHtml state_val
  if text ≠ "" then ["<li>" ++ text ++ state_html ++ "</li>", "<br>"] else []

/-- The loop body of `build_patent_items` for one record (source lines
351-398): a present, non-empty visibility value outside `trueTokens` skips the
record; otherwise the record is formatted by `patentItemBody`. -/
def patentItemsOf (r : Record) : List String :=
  let visible_key := (find_col r ["visible", "visable", "展示"]).getD ""
  if visible_key ≠ "" ∧
      (pyStrip (recGetD r visible_key "") ≠ "" ∧ pyStrip (recGetD r visible_key "") ∉ trueTokens) then
    []
  else patentItemBody r

/-- `build_patent_items` (source lines 349-399). -/
def build_patent_items (rows : List Record) : String :=
  joinSep "\n" (rows.flatMap patentItemsOf)

/-- The formatting part of the `build_award_items` loop body (source lines
412-441), i.e. everything after the visibility filter.  As with
`patentItemBody`, the key resolutions are pure and recomputed here. -/
def awardItemBody (r : Record) : List String :=
  let visible_key := (find_col r ["visible", "visable", "展示"]).getD ""
  let idx_key := (find_col r ["index", "序号"]).getD ""
  let note_key := (find_col r ["note", "备注"]).getD ""
  let year_key := (find_col r ["year", "年份"]).getD ""
  let time_key := (find_col r ["time", "日期", "时间"]).getD ""
  let excl : List String := ["", strLower idx_key, strLower visible_key, strLower note_key]
  let parts : List String :=
    r.filterMap (fun kv => if kv.2 ≠ "" ∧ strLower kv.1 ∉ excl then some kv.2 else none)
  let text0 := strip_leading_index (joinSep ", " parts)
  let note_val := if note_key ≠ "" then pyStrip (recGetD r note_key "") else ""
  let note_html := if note_val ≠ "" then " <font class=\"red\">(" ++ note_val ++ ")</font>" else ""
  let time_val := if time_key ≠ "" then pyStrip (recGetD r time_key "") else ""
  let year_val := if year_key ≠ "" then pyStrip (recGetD r year_key "") else ""
  let prefix_val := if time_val ≠ "" then time_val else year_val
  let text := if prefix_val ≠ "" then prefix_val ++ ", " ++ text0 else text0
  if text ≠ "" then ["<li>" ++ text ++ note_html ++ "</li>", "<br>"] else []

/-- The loop body of `build_award_items` for one record (source lines
404-441): the same visibility filter as for patents, then `awardItemBody`. -/
def awardItemsOf (r : Record) : List String :=
  let visible_key := (find_col r ["visible", "visable", "展示"]).getD ""
  if visible_key ≠ "" ∧
      (pyStrip (recGetD r visible_key "") ≠ "" ∧ pyStrip (recGetD r visible_key "") ∉ trueTokens) then
    []
  else awardItemBody r

/-- `build_award_items` (source lines 402-442). -/
def build_award_items (rows : List Record) : String :=
  joinSep "\n" (rows.flatMap awardItemsOf)

/-- `build_correspondence` (source lines 445-492): name/content rows, or one
flat record with the recognized contact columns. -/
def build_correspondence (rows : List Record) : String :=
  match rows with
  | [] => ""
  | first_row :: _ =>
    let name_key := find_col first_row ["name", "名称", "field"]
    let content_key := find_col first_row ["content", "内容", "value"]
    let nk := match name_key with | some k => if k ≠ "" then k else "" | none => ""
    let ck := match content_key with | some k => if k ≠ "" then k else "" | none => ""
    let items : List String :=
      if nk ≠ "" ∧ ck ≠ "" then
        rows.flatMap (fun r =>
          let name_val := pyStrip (recGetD r nk "")
          let content_val := pyStrip (recGetD r ck "")
          if name_val ≠ "" ∧ content_val ≠ "" then
            ["<li><i>" ++ name_val ++ "</i> :&nbsp;&nbsp; " ++ content_val ++ "</li>", "<br>"]
          else [])
      else
        let row := (rows.find? (fun r => r.any (fun kv => kv.2 != ""))).getD []
        let email := pyStrip (recGetD row ((find_col row ["email", "邮箱", "e-mail"]).getD "") "")
        let office := pyStrip (recGetD row ((find_col row ["office", "办公室", "lab", "laboratory"]).getD "") "")
        let address := pyStrip (recGetD row ((find_col row ["address", "地址", "location"]).getD "") "")
        let phone := pyStrip (recGetD row ((find_col row ["phone", "电话", "tel"]).getD "") "")
        let homepage := pyStrip (recGetD row ((find_col row ["homepage", "website", "个人主页"]).getD "") "")
        (if email ≠ "" then ["<li><i>Email</i> :&nbsp;&nbsp; " ++ email ++ "</li>", "<br>"] else []) ++
        (if phone ≠ "" then ["<li><i>Phone</i> :&nbsp;&nbsp; " ++ phone ++ "</li>", "<br>"] else []) ++
        (if office ≠ "" then ["<li><i>Office</i> :&nbsp;&nbsp; " ++ office ++ "</li>", "<br>"] else []) ++
        (if address ≠ "" then ["<li><i>Address</i> :&nbsp;&nbsp; " ++ address ++ "</li>", "<br>"] else []) ++
        (if homepage ≠ "" then
          ["<li><i>Homepage</i> :&nbsp;&nbsp; <a href=\x27" ++ homepage ++ "\x27 class=\"deepgrey\">" ++ homepage ++ "</a></li>"]
        else [])
    joinSep "\n" items

/-- `build_text_block` (source lines 495-501): space-join the non-empty cells
of the first record having any. -/
def build_text_block : List Record → String
  | [] => ""
  | r :: rest =>
    let vals := (r.map Prod.snd).filter (fun v => v != "")
    if !vals.isEmpty then joinSep " " vals else build_text_block rest

/-- The literal anchor marker `<div id="<name>"></div>` (source lines 508 and
547). -/
def anchorOf (section_id : List Char) : List Char :=
  "<div id=\"".data ++ section_id ++ "\"></div>".data

/-- Python `hay.find(sub)` as an `Option`: index of the first occurrence. -/
def findSubAux (needle : List Char) : List Char → Nat → Option Nat
  | [], i => if needle.isEmpty then some i else none
  | c :: t, i => if needle.isPrefixOf (c :: t) then some i else findSubAux needle t (i + 1)

def findSub (needle hay : List Char) : Option Nat := findSubAux needle hay 0

/-- Match of `<\s*TAG([^>]*)>` (IGNORECASE) at the head of `s`; returns the
match length.  `[^>]*` runs greedily up to the first `>`, which must exist. -/
def matchOpenAt (tag : List Char) (s : List Char) : Option Nat :=
  match s with
  | '<' :: r1 =>
    let ws := r1.takeWhile pyIsSpace
    match matchCIL (tag.map Char.toLower) (r1.dropWhile pyIsSpace) with
    | none => none
    | some r2 =>
      let attrs := r2.takeWhile (fun c => c != '>')
      match r2.dropWhile (fun c => c != '>') with
      | '>' :: _ => some (1 + ws.length + tag.length + attrs.length + 1)
      | _ => none
  | _ => none

/-- Match of `</\s*TAG\s*>` (IGNORECASE) at the head of `s`. -/
def matchCloseAt (tag : List Char) (s : List Char) : Option Nat :=
  match s with
  | '<' :: '/' :: r1 =>
    let ws1 := r1.takeWhile pyIsSpace
    match matchCIL (tag.map Char.toLower) (r1.dropWhile pyIsSpace) with
    | none => none
    | some r2 =>
      let ws2 := r2.takeWhile pyIsSpace
      match r2.dropWhile pyIsSpace with
      | '>' :: _ => some (2 + ws1.length + tag.length + ws2.length + 1)
      | _ => none
  | _ => none

def searchOpenAux (tag : List Char) : List Char → Nat → Option (Nat × Nat)
  | [], _ => none
  | c :: t, pos =>
    match matchOpenAt tag (c :: t) with
    | some n => some (pos, pos + n)
    | none => searchOpenAux tag t (pos + 1)

/-- `re.search` of the opening-tag pattern with `pos=start` (source lines
514-515 and 552-553): `(start, end)` of the first match at or after
`start`. -/
def searchOpenFrom (tag : List Char) (hay : List Char) (start : Nat) : Option (Nat × Nat) :=
  searchOpenAux tag (hay.drop start) start

def searchCloseAux (tag : List Char) : List Char → Nat → Option (Nat × Nat)
  | [], _ => none
  | c :: t, pos =>
    match matchCloseAt tag (c :: t) with
    | some n => some (pos, pos + n)
    | none => searchCloseAux tag t (pos + 1)

/-- `re.search` of the closing-tag pattern with `pos=open_end` (source lines
521-522 and 558-559). -/
def searchCloseFrom (tag : List Char) (hay : List Char) (start : Nat) : Option (Nat × Nat) :=
  searchCloseAux tag (hay.drop start) start

/-- `re.search(r"\n([ \t]+)\S", inner)` (source lines 531 and 569): the
space/tab run after the first newline that is followed by a non-whitespace
character.  Greedy `[ \t]+` needs no backtracking: a shorter run ends on a
space or tab, never on `\S`. -/
def indentOf : List Char → Option (List Char)
  | [] => none
  | '\n' :: t =>
    let run := t.takeWhile (fun c => c == ' ' || c == '\t')
    let rest := t.dropWhile (fun c => c == ' ' || c == '\t')
    if !run.isEmpty && (match rest.head? with | some c => !pyIsSpace c | none => false) then some run
    else indentOf t
  | _ :: t => indentOf t

/-- Python `str.splitlines()` for the `\n` / `\r\n` / `\r` terminators (the
only ones the composed fragments can contain). -/
def splitlinesAux (cur : List Char) : List Char → List (List Char)
  | [] => if cur.isEmpty then [] else [cur.reverse]
  | '\r' :: '\n' :: t => cur.reverse :: splitlinesAux [] t
  | '\n' :: t => cur.reverse :: splitlinesAux [] t
  | '\r' :: t => cur.reverse :: splitlinesAux [] t
  | c :: t => splitlinesAux (c :: cur) t

def splitlinesPy (l : List Char) : List (List Char) := splitlinesAux [] l

/-- The reindented replacement content of `replace_section_list` (source
lines 529-540): the indentation of the first existing content line (or the
twelve-space default), an injected leading `<br>` line, then the new inner
lines, each re-indented. -/
def newInnerIndented (html : List Char) (open_end close_start : Nat) (new_inner : List Char) : List Char :=
  let current_inner := (html.drop open_end).take (close_start - open_end)
  let indent := (indentOf current_inner).getD (List.replicate 12 ' ')
  let inner_lines := splitlinesPy new_inner
  if !inner_lines.isEmpty then
    '\n' :: (indent ++ "<br>\n".data ++ joinL ['\n'] (inner_lines.map (fun line => indent ++ line)) ++ ['\n'])
  else '\n' :: (indent ++ "<br>\n".data)

/-- `replace_section_list` on char lists (source lines 504-542): find the
anchor, the next opening tag of `list_tag`, its next closing tag, and replace
the content strictly between them with the reindented new inner HTML (led by
an injected `<br>` line); any failed search returns the input unchanged. -/
def replaceSectionListL (html section_id list_tag new_inner : List Char) : List Char :=
  match findSub (anchorOf section_id) html with
  | none => html
  | some start_anchor =>
    match searchOpenFrom list_tag html start_anchor with
    | none => html
    | some (_, open_end) =>
      match searchCloseFrom list_tag html open_end with
      | none => html
      | some (close_start, _) =>
        html.take open_end ++ newInnerIndented html open_end close_start new_inner ++ html.drop close_start

/-- `replace_section_list` (source lines 504-542); a total function — no
search failure raises, each returns the document unchanged. -/
def replace_section_list (html section_id list_tag new_inner : String) : String :=
  strOfL (replaceSectionListL html.data section_id.data list_tag.data new_inner.data)

/-- `replace_text_after_section` on char lists (source lines 545-572). -/
def replaceTextAfterSectionL (html section_id tag new_text : List Char) : List Char :=
  match findSub (anchorOf section_id) html with
  | none => html
  | some start_anchor =>
    match searchOpenFrom tag html start_anchor with
    | none => html
    | some (_, open_end) =>
      match searchCloseFrom tag html open_end with
      | none => html
      | some (close_start, _) =>
        let existing_inner := (html.drop open_end).take (close_start - open_end)
        let indent := (indentOf existing_inner).getD (List.replicate 12 ' ')
        html.take open_end ++ ('\n' :: (indent ++ new_text ++ ['\n'])) ++ html.drop close_start

/-- `replace_text_after_section` (source lines 545-572); total, like
`replace_section_list`. -/
def replace_text_after_section (html section_id tag new_text : String) : String :=
  strOfL (replaceTextAfterSectionL html.data section_id.data tag.data new_text.data)

/-- Lazy scan for `LIT1(.*?)LIT3` where `.` excludes newlines: the shortest
non-newline stretch ending where `LIT3` starts.  Returns the input after
`LIT3`. -/
def innerScan (lit3 : List Char) : List Char → Option (List Char)
  | [] => if lit3.isEmpty then some [] else none
  | c :: t =>
    if lit3.isPrefixOf (c :: t) then some ((c :: t).drop lit3.length)
    else if c == '\n' then none
    else innerScan lit3 t

/-- One header-block substitution `re.sub(r"(LIT1)(.*?)(LIT3)", r"\1MID\3", html,
count=1)` (source lines 647-658): replace the first (leftmost, then shortest)
match, keep everything else. -/
def subLazyBetween (lit1 lit3 mid : List Char) : List Char → List Char
  | [] => []
  | c :: t =>
    if lit1.isPrefixOf (c :: t) then
      match innerScan lit3 ((c :: t).drop lit1.length) with
      | some rest => lit1 ++ mid ++ lit3 ++ rest
      | none => c :: subLazyBetween lit1 lit3 mid t
    else c :: subLazyBetween lit1 lit3 mid t

/-- A worksheet: a title and its cell grid (the shape §6 of the spec gives
for the collaborator-provided workbook). -/
structure Sheet where
  title : String
  grid : List (List Cell)

abbrev Upd := String × String × String

/-- One iteration of the worksheet loop of `process_workbook_to_html`
(source lines 583-661): classify the normalized title, accumulate a list or
text patch, or apply the header/profile inline substitutions directly. -/
def processSheet (st : String × List Upd × List Upd) (ws : Sheet) : String × List Upd × List Upd :=
  let html := st.1
  let updates := st.2.1
  let text_updates := st.2.2
  let norm := normalize_name ws.title
  let rows := read_rows_as_dicts ws.grid
  if rows.isEmpty then st
  else if norm ∈ (["biography", "bio", "传记", "简历"] : List String) then st
  else if norm ∈ (["news", "最新动态", "动态"] : List String) then
    (html, updates ++ [("News", "ul", build_news_items rows)], text_updates)
  else if norm ∈ (["featured article", "featured", "精选文章"] : List String) then
    (html, updates ++ [("Featured Article", "ol", build_featured_items rows)], text_updates)
  else if norm ∈ (["book chapter", "book chapters", "图书章节"] : List String) then
    (html, updates ++ [("Book Chapter", "ol", build_book_chapter_items rows)], text_updates)
  else if norm ∈ (["refereed journal papers", "journal", "journals", "期刊论文"] : List String) then
    (html, updates ++ [("Refereed Journal Papers", "ol", build_journal_items_with_trailing_br rows)], text_updates)
  else if norm ∈ (["refereed conference papers", "refereed conference paper", "conference",
      "conferences", "会议论文", "conf", "conference papers", "refereed conferences", "会议"] : List String) then
    (html, updates ++ [("Refereed Conference Papers", "ol", build_conference_items_with_trailing_br rows)], text_updates)
  else if norm ∈ (["patent", "patents", "专利"] : List String) then
    (html, updates ++ [("Patent", "ol", build_patent_items rows)], text_updates)
  else if norm ∈ (["award", "awards", "award & honors", "honors", "荣誉", "奖项"] : List String) then
    (html, updates ++ [("Award", "ul", build_award_items rows)], text_updates)
  else if norm ∈ (["correspondence", "contact", "contacts", "联系方式", "联系", "通讯"] : List String) then
    (html, updates ++ [("Correspondence", "ul", build_correspondence rows)], text_updates)
  else if norm ∈ (["research interests", "interests", "研究兴趣"] : List String) then
    (html, updates, text_updates ++ [("Research Interests", "h5", build_text_block rows)])
  else if norm ∈ (["header", "profile", "顶部", "基本信息"] : List String) then
    let row := rows.headD []
    let name_cn := recGetD row ((find_col row ["name_cn", "姓名"]).getD "") ""
    let name_en := recGetD row ((find_col row ["name_en", "英文名"]).getD "") ""
    let email := recGetD row ((find_col row ["email"]).getD "") ""
    let ieee := recGetD row ((find_col row ["ieee", "ieee link"]).getD "") ""
    let h1 := if name_cn ≠ "" then
        strOfL (subLazyBetween "<h2 class=\"white\">".data "</h2>".data name_cn.data html.data)
      else html
    let h2 := if name_en ≠ "" then
        strOfL (subLazyBetween "<h3 class=\"white\">".data "</h3>".data name_en.data h1.data)
      else h1
    let h3 := if email ≠ "" then
        strOfL (subLazyBetween "<h5 class=\"white\">E-mail:".data "</h5>".data (" " ++ email).data h2.data)
      else h2
    let h4 := if ieee ≠ "" then
        strOfL (subLazyBetween "<a href=\"".data "\" class=\"blue\">IEEE author homepage</a>".data ieee.data h3.data)
      else h3
    (h4, updates, text_updates)
  else st

/-- The pure core of `process_workbook_to_html` (source lines 575-671), the
file I/O at its boundary stripped: iterate the worksheets accumulating
patches, then apply all list patches, then all text patches. -/
def process_workbook_to_html (sheets : List Sheet) (html : String) : String :=
  let st := sheets.foldl processSheet (html, [], [])
  let h1 := st.2.1.foldl (fun acc u => replace_section_list acc u.1 u.2.1 u.2.2) st.1
  st.2.2.foldl (fun acc u => replace_text_after_section acc u.1 u.2.1 u.2.2) h1

/- ------------------------------------------------------------------ -/
/- Helper lemmas (shared between claims; none is a claim's theorem).  -/
/- ------------------------------------------------------------------ -/

theorem strData_append (a b : String) : (a ++ b).data = a.data ++ b.data := rfl

theorem strAppend_assoc (a b c : String) : (a ++ b) ++ c = a ++ (b ++ c) :=
  congrArg String.mk (List.append_assoc a.data b.data c.data)

theorem strOfL_data (s : String) : strOfL s.data = s := rfl

theorem joinSep_cons₂ (sep x y : String) (xs : List String) :
    joinSep sep (x :: y :: xs) = x ++ sep ++ joinSep sep (y :: xs) := rfl

/-- When all three searches succeed, `replace_section_list` keeps the prefix
through the matched opening tag and the suffix from the matched closing tag,
and replaces only the inner stretch. -/
theorem replaceSectionListL_found (html section_id list_tag new_inner : List Char)
    {a os oe cs ce : Nat}
    (h1 : findSub (anchorOf section_id) html = some a)
    (h2 : searchOpenFrom list_tag html a = some (os, oe))
    (h3 : searchCloseFrom list_tag html oe = some (cs, ce)) :
    replaceSectionListL html section_id list_tag new_inner
      = html.take oe ++ newInnerIndented html oe cs new_inner ++ html.drop cs := by
  simp only [replaceSectionListL, h1, h2, h3]

theorem processSheet_skip (st : String × List Upd × List Upd) (ws : Sheet)
    (h : read_rows_as_dicts ws.grid = []) : processSheet st ws = st := by
  unfold processSheet
  rw [h]
  rfl

/- ------------------------------------------------------------------ -/
/- C1                                                                  -/
/- ------------------------------------------------------------------ -/

/-- C1: both patcher operations are total no-ops when the literal anchor
marker is absent, or no opening tag of the given name follows the anchor, or
no closing tag follows the matched opening tag: the document text is returned
unchanged (and, being total Lean functions, they never raise). -/
theorem c1_patcher_noop (html section_id list_tag new_inner new_text : String)
    (h : findSub (anchorOf section_id.data) html.data = none
      ∨ (∃ a, findSub (anchorOf section_id.data) html.data = some a
          ∧ searchOpenFrom list_tag.data html.data a = none)
      ∨ (∃ a os oe, findSub (anchorOf section_id.data) html.data = some a
          ∧ searchOpenFrom list_tag.data html.data a = some (os, oe)
          ∧ searchCloseFrom list_tag.data html.data oe = none)) :
    replace_section_list html section_id list_tag new_inner = html
      ∧ replace_text_after_section html section_id list_tag new_text = html := by
  constructor
  · rcases h with h0 | ⟨a, h1, h2⟩ | ⟨a, os, oe, h1, h2, h3⟩
    · simp only [replace_section_list, replaceSectionListL, h0, strOfL_data]
    · simp only [replace_section_list, replaceSectionListL, h1, h2, strOfL_data]
    · simp only [replace_section_list, replaceSectionListL, h1, h2, h3, strOfL_data]
  · rcases h with h0 | ⟨a, h1, h2⟩ | ⟨a, os, oe, h1, h2, h3⟩
    · simp only [replace_text_after_section, replaceTextAfterSectionL, h0, strOfL_data]
    · simp only [replace_text_after_section, replaceTextAfterSectionL, h1, h2, strOfL_data]
    · simp only [replace_text_after_section, replaceTextAfterSectionL, h1, h2, h3, strOfL_data]

/-- C1 witness: on a document without the `Award` anchor both operations
leave the text untouched. -/
theorem c1_witness :
    replace_section_list "<p>hello</p>" "Award" "ul" "<li>x</li>" = "<p>hello</p>"
      ∧ replace_text_after_section "<p>hello</p>" "Award" "ul" "x" = "<p>hello</p>" :=
  c1_patcher_noop "<p>hello</p>" "Award" "ul" "<li>x</li>" "x" (Or.inl (by decide))

/- ------------------------------------------------------------------ -/
/- C9                                                                  -/
/- ------------------------------------------------------------------ -/

/-- C9: when the anchor and an opening/closing tag pair are found, list
replacement returns a document whose prefix up to and including the matched
opening tag (`take oe`) and whose suffix from the matched closing tag onward
(`drop cs`) are identical to the input; only the stretch strictly between
them is replaced. -/
theorem c9_list_replacement_frame (html section_id list_tag new_inner : String)
    (a os oe cs ce : Nat)
    (h1 : findSub (anchorOf section_id.data) html.data = some a)
    (h2 : searchOpenFrom list_tag.data html.data a = some (os, oe))
    (h3 : searchCloseFrom list_tag.data html.data oe = some (cs, ce)) :
    ∃ mid, (replace_section_list html section_id list_tag new_inner).data
      = html.data.take oe ++ mid ++ html.data.drop cs :=
  ⟨newInnerIndented html.data oe cs new_inner.data,
    replaceSectionListL_found html.data section_id.data list_tag.data new_inner.data h1 h2 h3⟩

/-- C9 witness: a concrete document whose `Sec` anchor precedes an `ol`
pair. -/
theorem c9_witness :
    ∃ mid, (replace_section_list "X<div id=\"Sec\"></div><ol><li>q</li></ol>Y" "Sec" "ol" "<li>new</li>").data
      = "X<div id=\"Sec\"></div><ol><li>q</li></ol>Y".data.take 25 ++ mid
        ++ "X<div id=\"Sec\"></div><ol><li>q</li></ol>Y".data.drop 35 :=
  c9_list_replacement_frame "X<div id=\"Sec\"></div><ol><li>q</li></ol>Y" "Sec" "ol" "<li>new</li>"
    1 21 25 35 40 (by decide) (by decide) (by decide)

/- ------------------------------------------------------------------ -/
/- C10                                                                 -/
/- ------------------------------------------------------------------ -/

/-- C10: a worksheet whose grid yields no records is skipped before any title
classification, so running the orchestrator with it inserted anywhere gives
exactly the document produced without it — a recognized section title with an
empty grid never modifies the existing document content. -/
theorem c10_empty_sheet_skipped (pre post : List Sheet) (ws : Sheet) (html : String)
    (h : read_rows_as_dicts ws.grid = []) :
    process_workbook_to_html (pre ++ ws :: post) html = process_workbook_to_html (pre ++ post) html := by
  unfold process_workbook_to_html
  rw [List.foldl_append, List.foldl_append, List.foldl_cons, processSheet_skip _ _ h]

/-- C10 witness: a `News`-titled worksheet whose only row is blank leaves a
concrete document unchanged. -/
theorem c10_witness :
    process_workbook_to_html [⟨"News", [[none]]⟩] "<p>x</p>" = "<p>x</p>" :=
  c10_empty_sheet_skipped [] [] ⟨"News", [[none]]⟩ "<p>x</p>" (by decide)

/- ------------------------------------------------------------------ -/
/- C2                                                                  -/
/- ------------------------------------------------------------------ -/

/-- C2: a worksheet titled `Awards` with header `[year, title, note]` and the
single data row `[2023, Best Paper, ACM]` (no visibility column) formats to
exactly the claimed list item followed by a `<br>` line, and running the
orchestrator on it splices that fragment into the `Award`-anchored `ul` of any
document, leaving everything outside the list's inner content identical. -/
theorem c2_awards_end_to_end :
    build_award_items (read_rows_as_dicts
        [[some "year", some "title", some "note"], [some "2023", some "Best Paper", some "ACM"]])
      = "<li>2023, Best Paper <font class=\"red\">(ACM)</font></li>\n<br>"
    ∧ ∀ (doc : String) (a os oe cs ce : Nat),
        findSub (anchorOf "Award".data) doc.data = some a →
        searchOpenFrom "ul".data doc.data a = some (os, oe) →
        searchCloseFrom "ul".data doc.data oe = some (cs, ce) →
        ∃ mid, (process_workbook_to_html
            [⟨"Awards", [[some "year", some "title", some "note"], [some "2023", some "Best Paper", some "ACM"]]⟩]
            doc).data
          = doc.data.take oe ++ mid ++ doc.data.drop cs := by
  constructor
  · decide
  · intro doc a os oe cs ce h1 h2 h3
    have hp : process_workbook_to_html
        [⟨"Awards", [[some "year", some "title", some "note"], [some "2023", some "Best Paper", some "ACM"]]⟩] doc
        = replace_section_list doc "Award" "ul"
            (build_award_items (read_rows_as_dicts
              [[some "year", some "title", some "note"], [some "2023", some "Best Paper", some "ACM"]])) := rfl
    rw [hp]
    exact ⟨_, replaceSectionListL_found doc.data "Award".data "ul".data _ h1 h2 h3⟩

/-- C2 witness: the splice applied to a concrete `Award`-anchored document. -/
theorem c2_witness :
    ∃ mid, (process_workbook_to_html
        [⟨"Awards", [[some "year", some "title", some "note"], [some "2023", some "Best Paper", some "ACM"]]⟩]
        "<div id=\"Award\"></div>\n<ul>\n<li>a</li>\n</ul>").data
      = "<div id=\"Award\"></div>\n<ul>\n<li>a</li>\n</ul>".data.take 27 ++ mid
        ++ "<div id=\"Award\"></div>\n<ul>\n<li>a</li>\n</ul>".data.drop 39 :=
  c2_awards_end_to_end.2 "<div id=\"Award\"></div>\n<ul>\n<li>a</li>\n</ul>"
    0 23 27 39 44 (by decide) (by decide) (by decide)

/- ------------------------------------------------------------------ -/
/- Association-list and zip lemmas for the Row Extractor               -/
/- ------------------------------------------------------------------ -/

theorem lookup_cons_self (es : Record) (k b : String) :
    List.lookup k ((k, b) :: es) = some b := by
  rw [List.lookup_cons, beq_self_eq_true]

theorem lookup_cons_ne (es : Record) (k a b : String) (h : k ≠ a) :
    List.lookup k ((a, b) :: es) = List.lookup k es := by
  rw [List.lookup_cons, beq_eq_false_iff_ne.mpr h]

theorem lookup_dinsert (e : Record) (ki vi k : String) :
    List.lookup k (dinsert e ki vi) = if k = ki then some vi else List.lookup k e := by
  induction e with
  | nil =>
    show List.lookup k [(ki, vi)] = _
    by_cases hk : k = ki
    · rw [if_pos hk, hk, lookup_cons_self]
    · rw [if_neg hk, lookup_cons_ne _ _ _ _ hk]
  | cons hd tl ih =>
    obtain ⟨a, b⟩ := hd
    show List.lookup k (if (a == ki) = true then (a, vi) :: tl else (a, b) :: dinsert tl ki vi) = _
    by_cases hak : a = ki
    · rw [if_pos (beq_iff_eq.mpr hak)]
      by_cases hka : k = a
      · rw [hka, lookup_cons_self, if_pos hak]
      · rw [lookup_cons_ne _ _ _ _ hka, if_neg (fun hc => hka (hc.trans hak.symm)),
          lookup_cons_ne _ _ _ _ hka]
    · rw [if_neg (fun hc => hak (beq_iff_eq.mp hc))]
      by_cases hka : k = a
      · rw [hka, lookup_cons_self, if_neg hak, lookup_cons_self]
      · rw [lookup_cons_ne _ _ _ _ hka, lookup_cons_ne _ _ _ _ hka, ih]

theorem lookup_foldl_dinsert_isSome (ps : List (String × String)) :
    ∀ (init : Record) (k : String),
      (List.lookup k (ps.foldl (fun e kv => dinsert e kv.1 kv.2) init)).isSome = true
        ↔ k ∈ ps.map Prod.fst ∨ (List.lookup k init).isSome = true := by
  induction ps with
  | nil => intro init k; simp
  | cons hd tl ih =>
    intro init k
    obtain ⟨a, b⟩ := hd
    simp only [List.foldl_cons, List.map_cons, List.mem_cons]
    rw [ih (dinsert init a b) k]
    have hd1 : (List.lookup k (dinsert init a b)).isSome = true
        ↔ k = a ∨ (List.lookup k init).isSome = true := by
      rw [lookup_dinsert]
      by_cases hka : k = a <;> simp [hka]
    rw [hd1]
    tauto

theorem lookup_foldl_dinsert_mem (ps : List (String × String)) :
    ∀ (init : Record) (k v : String),
      List.lookup k (ps.foldl (fun e kv => dinsert e kv.1 kv.2) init) = some v →
        (k, v) ∈ ps ∨ List.lookup k init = some v := by
  induction ps with
  | nil => intro init k v h; exact Or.inr h
  | cons hd tl ih =>
    intro init k v h
    obtain ⟨a, b⟩ := hd
    rw [List.foldl_cons] at h
    rcases ih (dinsert init a b) k v h with h1 | h2
    · exact Or.inl (List.mem_cons_of_mem _ h1)
    · rw [lookup_dinsert] at h2
      by_cases hka : k = a
      · rw [if_pos hka] at h2
        injection h2 with hbv
        exact Or.inl (by rw [hka, ← hbv]; exact List.mem_cons_self _ _)
      · rw [if_neg hka] at h2
        exact Or.inr h2

theorem map_fst_zip_take (hs : List String) (row : List Cell) :
    (hs.zip row).map Prod.fst = hs.take row.length := by
  induction hs generalizing row with
  | nil => simp
  | cons h t ih =>
    cases row with
    | nil => simp
    | cons c rt => simp [List.zip_cons_cons, ih]

theorem mem_zip_snd_take (hs : List String) (row : List Cell) (a : String) (c : Cell)
    (h : (a, c) ∈ hs.zip row) : c ∈ row.take hs.length := by
  induction hs generalizing row with
  | nil => simp [List.zip] at h
  | cons hh ht ih =>
    cases row with
    | nil => simp at h
    | cons rc rt =>
      rw [List.zip_cons_cons] at h
      rcases List.mem_cons.mp h with he | hm
      · injection he with h1 h2
        rw [List.length_cons, List.take_succ_cons, h2]
        exact List.mem_cons_self _ _
      · rw [List.length_cons, List.take_succ_cons]
        exact List.mem_cons_of_mem _ (ih rt hm)

theorem rowToRecord_eq_foldl (hs : List String) (row : List Cell) :
    rowToRecord hs row
      = ((hs.zip row).map (fun kc => (kc.1, cellToStr kc.2))).foldl
          (fun e kv => dinsert e kv.1 kv.2) [] := by
  unfold rowToRecord
  rw [List.foldl_map]

theorem rowToRecord_keys (hs : List String) (row : List Cell) (k : String) :
    (List.lookup k (rowToRecord hs row)).isSome = true ↔ k ∈ hs.take row.length := by
  rw [rowToRecord_eq_foldl, lookup_foldl_dinsert_isSome]
  have hmap : ((hs.zip row).map (fun kc => (kc.1, cellToStr kc.2))).map Prod.fst
      = (hs.zip row).map Prod.fst := by
    rw [List.map_map]
    rfl
  rw [hmap, map_fst_zip_take]
  simp [List.lookup]

theorem rowToRecord_values (hs : List String) (row : List Cell) (k v : String)
    (h : List.lookup k (rowToRecord hs row) = some v) :
    ∃ c ∈ row.take hs.length, v = cellToStr c := by
  rw [rowToRecord_eq_foldl] at h
  rcases lookup_foldl_dinsert_mem _ _ _ _ h with hm | hnil
  · rcases List.mem_map.mp hm with ⟨kc, hkc, heq⟩
    obtain ⟨a, c⟩ := kc
    injection heq with h1 h2
    exact ⟨c, mem_zip_snd_take hs row a c hkc, h2.symm⟩
  · simp [List.lookup] at hnil

/- ------------------------------------------------------------------ -/
/- C3                                                                  -/
/- ------------------------------------------------------------------ -/

/-- C3 counterexample: with header row `[h1, h2]` and the shorter data row
`[x]`, the produced record has no entry at all for the trailing header `h2` —
it is not mapped to the empty string as the claim states (Python `zip`
truncates to the shorter sequence). -/
theorem c3_counterexample :
    read_rows_as_dicts [[some "h1", some "h2"], [some "x"]] = [[("h1", "x")]]
      ∧ List.lookup "h2" ([("h1", "x")] : Record) = none := by decide

/-- C3 (amended): the Row Extractor's output is exactly the per-row zip
against THE detected header set: once the first non-blank row `hrow` is
reached (all rows before it blank), the records are
`rowToRecord (headersOf hrow)` mapped over the subsequent non-blank rows;
and for EVERY header set and EVERY data row, a key has an entry in the
zipped record exactly when it is one of the first `row.length` header names
(so a row shorter than the header leaves the trailing header names absent
rather than mapped to the empty string), while every stored value is the
trimmed string image of a cell within the header's span (extra cells beyond
the header length are dropped). -/
theorem c3_zip_semantics :
    (∀ (pre : List (List Cell)) (hrow : List Cell) (rest : List (List Cell)),
      (∀ b ∈ pre, rowNonBlank b = false) → rowNonBlank hrow = true →
      read_rows_as_dicts (pre ++ hrow :: rest)
        = (rest.filter rowNonBlank).map (rowToRecord (headersOf hrow)))
    ∧ (∀ (hs : List String) (row : List Cell) (k : String),
      (List.lookup k (rowToRecord hs row)).isSome = true ↔ k ∈ hs.take row.length)
    ∧ (∀ (hs : List String) (row : List Cell) (k v : String),
      List.lookup k (rowToRecord hs row) = some v
        → ∃ c ∈ row.take hs.length, v = cellToStr c) := by
  refine ⟨?_, rowToRecord_keys, rowToRecord_values⟩
  intro pre
  induction pre with
  | nil =>
    intro hrow rest _ hb
    rw [List.nil_append, read_rows_as_dicts, if_pos hb]
  | cons b pre ih =>
    intro hrow rest hpre hb
    have hbb : rowNonBlank b = false := hpre b (List.mem_cons_self _ _)
    rw [List.cons_append, read_rows_as_dicts, if_neg (by simp [hbb])]
    exact ih hrow rest (fun x hx => hpre x (List.mem_cons_of_mem _ hx)) hb

/-- C3 witness: a blank row, then the header `[h1, h2]`, then the data row
`[x]`; plus the value characterisation instantiated at a concrete lookup. -/
theorem c3_witness :
    read_rows_as_dicts [[none], [some "h1", some "h2"], [some "x"]]
      = ([[some "x"]].filter rowNonBlank).map (rowToRecord (headersOf [some "h1", some "h2"]))
    ∧ ∃ c ∈ ([some "x"] : List Cell).take 2, "x" = cellToStr c :=
  ⟨c3_zip_semantics.1 [[none]] [some "h1", some "h2"] [[some "x"]] (by decide) (by decide),
   c3_zip_semantics.2.2 ["h1", "h2"] [some "x"] "h1" "x" (by decide)⟩

/- ------------------------------------------------------------------ -/
/- C4                                                                  -/
/- ------------------------------------------------------------------ -/

theorem find?_eq_of_mem_unique {α : Type} {p : α → Bool} {l : List α} {a : α}
    (ha : a ∈ l) (hpa : p a = true) (hu : ∀ x ∈ l, p x = true → x = a) :
    l.find? p = some a := by
  induction l with
  | nil => simp at ha
  | cons x t ih =>
    by_cases hx : p x = true
    · rw [List.find?_cons_of_pos _ hx]
      exact congrArg some (hu x (List.mem_cons_self x t) hx)
    · rw [List.find?_cons_of_neg _ hx]
      rcases List.mem_cons.mp ha with h1 | h2
      · exact absurd (h1 ▸ hpa) hx
      · exact ih h2 (fun y hy => hu y (List.mem_cons_of_mem _ hy))

theorem findSome?_exists {α β : Type} {f : α → Option β} {l : List α} {b : β}
    (h : l.findSome? f = some b) : ∃ a ∈ l, f a = some b := by
  induction l with
  | nil => simp [List.findSome?] at h
  | cons x t ih =>
    rw [List.findSome?_cons] at h
    cases hfx : f x with
    | some bb =>
      rw [hfx] at h
      exact ⟨x, List.mem_cons_self x t, hfx.trans h⟩
    | none =>
      rw [hfx] at h
      rcases ih h with ⟨a, ha, hfa⟩
      exact ⟨a, List.mem_cons_of_mem _ ha, hfa⟩

/-- C4 counterexample: in `[("Title", _), ("TITLE", _)]` both keys have the
lowercase image `title`; the dict comprehension `{k.lower(): k for k in keys}`
lets the later `TITLE` shadow `Title`, so `find_col` returns `TITLE`, not the
literal `Title` field the unqualified claim promises. -/
theorem c4_counterexample :
    find_col ([("Title", "a"), ("TITLE", "b")] : Record) ["title", "题目"] = some "TITLE"
      ∧ (some "TITLE" : Option String) ≠ some "Title" := by decide

/-- C4 (amended): a record with a field literally named `Title` — and no
OTHER field whose lowercase image is exactly `title` — resolves the
candidates `["title", "题目"]` to that very field: the exact case-insensitive
pass always wins before the substring pass is even consulted, however many
other field names merely contain `title` as a case-insensitive substring.
(Without the uniqueness proviso, dict-comprehension shadowing lets the last
exact case-insensitive match win, as the counterexample shows.) -/
theorem c4_exact_match_preferred (r : Record)
    (hmem : "Title" ∈ r.map Prod.fst)
    (huniq : ∀ k ∈ r.map Prod.fst, strLower k = "title" → k = "Title") :
    find_col r ["title", "题目"] = some "Title" := by
  have hlow : strLower "title" = "title" := by decide
  have hfind : (r.map Prod.fst).reverse.find? (fun k => strLower k == strLower "title")
      = some "Title" := by
    apply find?_eq_of_mem_unique
    · exact List.mem_reverse.mpr hmem
    · show (strLower "Title" == strLower "title") = true
      decide
    · intro x hx hpx
      apply huniq x (List.mem_reverse.mp hx)
      have hx2 : strLower x = strLower "title" := beq_iff_eq.mp hpx
      rwa [hlow] at hx2
  have h2 : (["title", "题目"] : List String).findSome?
      (fun p => (r.map Prod.fst).reverse.find? (fun k => strLower k == strLower p))
      = some "Title" := by
    rw [List.findSome?_cons, hfind]
  simp only [find_col, h2]

/-- C4 witness: the earlier key `My Title Col` contains `title` as a
case-insensitive substring, yet the literal `Title` field is returned. -/
theorem c4_witness :
    find_col ([("My Title Col", "a"), ("Title", "b")] : Record) ["title", "题目"] = some "Title" :=
  c4_exact_match_preferred [("My Title Col", "a"), ("Title", "b")] (by decide) (by decide)

/- ------------------------------------------------------------------ -/
/- C5                                                                  -/
/- ------------------------------------------------------------------ -/

/-- C5: on `"Alice Lee, Yuchen Li, Bob Chen"` with author position `2`,
exactly the token `Yuchen Li` is wrapped in the deepblue emphasis marker and
the two other tokens are untouched; with no position indicator the fallback
name-pattern substitution wraps the same token (its marker carries the
literal backslashes that the raw-string replacement template of the source
preserves). -/
theorem c5_author_highlight :
    highlight_authors "Alice Lee, Yuchen Li, Bob Chen" (some "2")
      = "Alice Lee, <font class=\"deepblue\">Yuchen Li</font>, Bob Chen"
    ∧ highlight_authors "Alice Lee, Yuchen Li, Bob Chen" none
      = "Alice Lee, <font class=\\\"deepblue\\\">Yuchen Li</font>, Bob Chen" := by decide

/- ------------------------------------------------------------------ -/
/- C6                                                                  -/
/- ------------------------------------------------------------------ -/

/-- C6 counterexample: the state text `授权公开` contains the token `授权`,
so the claim requires a red parenthetical, but the code tests `公开` first and
emits blue. -/
theorem c6_counterexample :
    build_patent_items [[("title", "X"), ("state", "授权公开")]]
      = "<li>X <font class=\"blue\"><b>(授权公开)</b></font></li>\n<br>"
    ∧ "<li>X <font class=\"blue\"><b>(授权公开)</b></font></li>\n<br>"
      ≠ "<li>X <font class=\"red\"><b>(授权公开)</b></font></li>\n<br>" := by decide

/-- C6 (amended): for every non-empty patent state text, a state containing
`公开` yields a blue parenthetical (`公开` takes precedence), otherwise one
containing `授权` yields red, and any other non-empty state yields blue; in
every case the parenthetical is bold and contains the state text. -/
theorem c6_state_coloring (s : String) (hs : s ≠ "") :
    (pyInStr "公开" s = true →
      patentStateHtml s = " <font class=\"blue\"><b>(" ++ s ++ ")</b></font>")
    ∧ (pyInStr "公开" s = false → pyInStr "授权" s = true →
      patentStateHtml s = " <font class=\"red\"><b>(" ++ s ++ ")</b></font>")
    ∧ (pyInStr "公开" s = false → pyInStr "授权" s = false →
      patentStateHtml s = " <font class=\"blue\"><b>(" ++ s ++ ")</b></font>")
    ∧ (patentStateHtml s = " <font class=\"red\"><b>(" ++ s ++ ")</b></font>"
      ∨ patentStateHtml s = " <font class=\"blue\"><b>(" ++ s ++ ")</b></font>") := by
  have hs' : (s == "") = false := beq_eq_false_iff_ne.mpr hs
  refine ⟨?_, ?_, ?_, ?_⟩
  · intro h1
    simp [patentStateHtml, hs', h1]
  · intro h1 h2
    simp [patentStateHtml, hs', h1, h2]
  · intro h1 h2
    simp [patentStateHtml, hs', h1, h2]
  · by_cases h1 : pyInStr "公开" s = true
    · exact Or.inr (by simp [patentStateHtml, hs', h1])
    · by_cases h2 : pyInStr "授权" s = true
      · exact Or.inl (by simp [patentStateHtml, hs', h1, h2])
      · exact Or.inr (by simp [patentStateHtml, hs', h1, h2])

/-- C6 witness: the plain `授权` state, which contains no `公开`, is rendered
red. -/
theorem c6_witness :
    patentStateHtml "授权" = " <font class=\"red\"><b>(" ++ "授权" ++ ")</b></font>" :=
  (c6_state_coloring "授权" (by decide)).2.1 (by decide) (by decide)

/- ------------------------------------------------------------------ -/
/- C7                                                                  -/
/- ------------------------------------------------------------------ -/

theorem strLower_empty {s : String} (h : strLower s = "") : s = "" := by
  have hd : s.data.map Char.toLower = [] := congrArg String.data h
  exact congrArg String.mk (List.map_eq_nil_iff.mp hd)

/-- A key `find_col` returns is never the empty string when every candidate
is non-empty: the exact pass forces equal lowercase images, the substring
pass cannot fit a non-empty needle into an empty key. -/
theorem find_col_ne_empty (r : Record) (cands : List String) (k : String)
    (hc : ∀ p ∈ cands, p ≠ "") (h : find_col r cands = some k) : k ≠ "" := by
  intro hke
  subst hke
  simp only [find_col] at h
  cases hm : cands.findSome?
      (fun p => (r.map Prod.fst).reverse.find? (fun x => strLower x == strLower p)) with
  | some kk =>
    rw [hm] at h
    have hkk : kk = "" := by injection h
    subst hkk
    rcases findSome?_exists hm with ⟨p, hp, hfind⟩
    have hpred := List.find?_some hfind
    have : strLower "" = strLower p := beq_iff_eq.mp hpred
    exact hc p hp (strLower_empty this.symm)
  | none =>
    rw [hm] at h
    have hpred := List.find?_some h
    rcases List.any_eq_true.mp hpred with ⟨p, hp, hin⟩
    have hdata : (strLower p).data = [] := by
      have : containsSubL (strLower p).data [] = true := hin
      rwa [containsSubL, List.isEmpty_iff] at this
    exact hc p hp (strLower_empty (congrArg String.mk hdata))

theorem patentItemsOf_skip (r : Record) (k : String)
    (hk : find_col r ["visible", "visable", "展示"] = some k)
    (hne : pyStrip (recGetD r k "") ≠ "")
    (hnt : pyStrip (recGetD r k "") ∉ trueTokens) :
    patentItemsOf r = [] := by
  have hk0 : k ≠ "" := find_col_ne_empty r _ k (by decide) hk
  have hcond : k ≠ "" ∧ (pyStrip (recGetD r k "") ≠ "" ∧ pyStrip (recGetD r k "") ∉ trueTokens) :=
    ⟨hk0, hne, hnt⟩
  simp only [patentItemsOf, hk, Option.getD_some, if_pos hcond]

theorem awardItemsOf_skip (r : Record) (k : String)
    (hk : find_col r ["visible", "visable", "展示"] = some k)
    (hne : pyStrip (recGetD r k "") ≠ "")
    (hnt : pyStrip (recGetD r k "") ∉ trueTokens) :
    awardItemsOf r = [] := by
  have hk0 : k ≠ "" := find_col_ne_empty r _ k (by decide) hk
  have hcond : k ≠ "" ∧ (pyStrip (recGetD r k "") ≠ "" ∧ pyStrip (recGetD r k "") ∉ trueTokens) :=
    ⟨hk0, hne, hnt⟩
  simp only [awardItemsOf, hk, Option.getD_some, if_pos hcond]

/-- C7 counterexample: a patent record whose visibility field holds the empty
string is NOT skipped — the code's `if vis_raw and ...` guard treats the
empty string as falsy, so the record still produces its list item, although
the empty string is not an accepted true token. -/
theorem c7_counterexample :
    build_patent_items [[("visible", ""), ("title", "Foo")]] = "<li>Foo</li>\n<br>"
      ∧ ("" : String) ∉ trueTokens := by decide

/-- C7 (amended): a patent or award record with a resolved visibility field
is dropped by the filter PRECISELY when its trimmed value is non-empty and
not one of the accepted true tokens: in that case it contributes no list item
to either builder; in every other case — an EMPTY visibility value or an
accepted true token — the filter does not fire and the record is formatted by
the normal patent/award body. -/
theorem c7_visibility_skip (r : Record) (k : String)
    (hk : find_col r ["visible", "visable", "展示"] = some k) :
    (pyStrip (recGetD r k "") ≠ "" ∧ pyStrip (recGetD r k "") ∉ trueTokens →
      patentItemsOf r = [] ∧ awardItemsOf r = []
        ∧ ∀ rest : List Record,
            build_patent_items (r :: rest) = build_patent_items rest
              ∧ build_award_items (r :: rest) = build_award_items rest)
    ∧ (pyStrip (recGetD r k "") = "" ∨ pyStrip (recGetD r k "") ∈ trueTokens →
      patentItemsOf r = patentItemBody r ∧ awardItemsOf r = awardItemBody r) := by
  constructor
  · rintro ⟨hne, hnt⟩
    refine ⟨patentItemsOf_skip r k hk hne hnt, awardItemsOf_skip r k hk hne hnt, ?_⟩
    intro rest
    constructor
    · show joinSep "\n" (patentItemsOf r ++ rest.flatMap patentItemsOf)
        = joinSep "\n" (rest.flatMap patentItemsOf)
      rw [patentItemsOf_skip r k hk hne hnt]
      rfl
    · show joinSep "\n" (awardItemsOf r ++ rest.flatMap awardItemsOf)
        = joinSep "\n" (rest.flatMap awardItemsOf)
      rw [awardItemsOf_skip r k hk hne hnt]
      rfl
  · intro hv
    have hcond : ¬(k ≠ "" ∧
        (pyStrip (recGetD r k "") ≠ "" ∧ pyStrip (recGetD r k "") ∉ trueTokens)) := by
      rcases hv with h | h
      · exact fun hc => hc.2.1 h
      · exact fun hc => hc.2.2 h
    constructor
    · simp only [patentItemsOf, hk, Option.getD_some, if_neg hcond]
    · simp only [awardItemsOf, hk, Option.getD_some, if_neg hcond]

/-- C7 witness: visibility `0` (non-empty, not accepted) drops the record
from both builders; visibility `yes` (an accepted token) and visibility ``
(empty) both pass the filter, and the records are formatted by the normal
bodies. -/
theorem c7_witness :
    (build_patent_items ([[("visible", "0"), ("title", "Hidden")]] : List Record)
        = build_patent_items []
      ∧ build_award_items ([[("visible", "0"), ("title", "Hidden")]] : List Record)
        = build_award_items [])
    ∧ (patentItemsOf [("visible", "yes"), ("title", "Shown")]
        = patentItemBody [("visible", "yes"), ("title", "Shown")]
      ∧ awardItemsOf [("visible", "yes"), ("title", "Shown")]
        = awardItemBody [("visible", "yes"), ("title", "Shown")])
    ∧ (patentItemsOf [("visible", ""), ("title", "Foo")]
        = patentItemBody [("visible", ""), ("title", "Foo")]
      ∧ awardItemsOf [("visible", ""), ("title", "Foo")]
        = awardItemBody [("visible", ""), ("title", "Foo")]) := by
  refine ⟨?_, ?_, ?_⟩
  · have h := (c7_visibility_skip [("visible", "0"), ("title", "Hidden")] "visible"
      (by decide)).1 (by decide)
    exact h.2.2 []
  · exact (c7_visibility_skip [("visible", "yes"), ("title", "Shown")] "visible"
      (by decide)).2 (by decide)
  · exact (c7_visibility_skip [("visible", ""), ("title", "Foo")] "visible"
      (by decide)).2 (by decide)

/- ------------------------------------------------------------------ -/
/- C8                                                                  -/
/- ------------------------------------------------------------------ -/

theorem joinSep_single (sep x : String) : joinSep sep [x] = x := rfl

theorem nl_br_lit : ("\n" : String) ++ "<br>" = "\n<br>" := rfl

theorem build_news_single (r : Record) :
    build_news_items [r] = newsLineOf r ++ "\n" ++ "<br>" := rfl

/-- C8 counterexample: for the record `{date: 2024-01-01, place: Paris}` no
text-like field resolves, yet the emitted text is the FIRST column's value
(`2024-01-01`), not the claimed join of all non-empty field values
(`2024-01-01, Paris`). -/
theorem c8_counterexample :
    build_news_items [[("date", "2024-01-01"), ("place", "Paris")]]
      = "<li><i>2024-01-01</i> : 2024-01-01</li>\n<br>"
    ∧ "<li><i>2024-01-01</i> : 2024-01-01</li>\n<br>"
      ≠ "<li><i>2024-01-01</i> : 2024-01-01, Paris</li>\n<br>" := by decide

/-- C8 (amended): a news record is rendered as `<li><i>date</i> : text</li>`
when a date field resolves WITH a non-empty trimmed value and as
`<li>text</li>` otherwise; when no designated text-like field resolves, the
text falls back first to the record's FIRST field value, and only when the
chosen value is empty to the comma-join of all non-empty field values; and
every emitted news line is followed by an explicit `<br>` line. -/
theorem c8_news_format :
    (∀ r : Record, newsDateVal r ≠ "" →
      build_news_items [r]
        = "<li><i>" ++ newsDateVal r ++ "</i> : " ++ newsTextVal r ++ "</li>" ++ "\n<br>")
    ∧ (∀ r : Record, newsDateVal r = "" →
      build_news_items [r] = "<li>" ++ newsTextVal r ++ "</li>" ++ "\n<br>")
    ∧ (∀ (k v : String) (rest : Record), k ≠ "" →
      find_col ((k, v) :: rest) ["text", "content", "描述", "description", "desc", "内容", "news"] = none →
      pyStrip v ≠ "" → newsTextVal ((k, v) :: rest) = pyStrip v)
    ∧ (∀ (k v : String) (rest : Record),
      find_col ((k, v) :: rest) ["text", "content", "描述", "description", "desc", "内容", "news"] = none →
      pyStrip v = "" → newsTextVal ((k, v) :: rest)
        = joinSep ", " ((((k, v) :: rest).map Prod.snd).filter (fun x => x != "")))
    ∧ (∀ (r r2 : Record) (rest : List Record),
      build_news_items (r :: r2 :: rest)
        = build_news_items [r] ++ "\n" ++ build_news_items (r2 :: rest)) := by
  refine ⟨?_, ?_, ?_, ?_, ?_⟩
  · intro r h
    rw [build_news_single]
    simp only [newsLineOf, if_pos (show (newsDateVal r != "") = true from bne_iff_ne.mpr h)]
    simp only [strAppend_assoc, nl_br_lit]
  · intro r h
    rw [build_news_single]
    have hb : (newsDateVal r != "") = false := by
      rw [h]
      rfl
    simp only [newsLineOf, hb, Bool.false_eq_true, if_false]
    simp only [strAppend_assoc, nl_br_lit]
  · intro k v rest hk hfc hv
    simp [newsTextVal, hfc, orKey, getIfKey, hk, recGetD, lookup_cons_self, hv]
  · intro k v rest hfc hv
    by_cases hk : k = ""
    · subst hk
      simp [newsTextVal, hfc, orKey, getIfKey]
      intro hc
      exact absurd rfl hc
    · simp [newsTextVal, hfc, orKey, getIfKey, hk, recGetD, lookup_cons_self, hv]
  · intro r r2 rest
    show joinSep "\n" (newsLineOf r :: "<br>" :: newsLineOf r2 :: "<br>"
        :: rest.flatMap (fun x => [newsLineOf x, "<br>"]))
      = joinSep "\n" [newsLineOf r, "<br>"] ++ "\n"
        ++ joinSep "\n" (newsLineOf r2 :: "<br>" :: rest.flatMap (fun x => [newsLineOf x, "<br>"]))
    simp only [joinSep_cons₂, joinSep_single]
    simp only [strAppend_assoc]

/-- C8 witness: the spec's own example record renders to the claimed line
with its trailing `<br>`. -/
theorem c8_witness :
    build_news_items [[("date", "2024-01-01"), ("text", "Joined Lab")]]
      = "<li><i>2024-01-01</i> : Joined Lab</li>\n<br>" := by
  have h := c8_news_format.1 [("date", "2024-01-01"), ("text", "Joined Lab")] (by decide)
  rw [h]
  decide
